import Mathlib

/-!
Verification development for the Promise implementation in `src/Promise.js`
(a Promises/A+ style deferred-value primitive).

The JavaScript source is shallowly embedded below.  Mutable promise state is
modelled by explicit state passing; machinery that the source spreads over
closures (the thenable-assimilation latch, the combinator counters, the
scheduler queue) is made explicit as data.  Every definition is translated
from the source file, with the source line numbers recorded in its doc
comment.
-/

namespace PromiseJS

/-- The internal status of a promise, `Status` in the source (lines 22-26).
The source spells the fulfilled state `FULLFILLED` (string value
`resolved`); the spelling is kept. -/
inductive Status : Type where
  | pending : Status
  | fullfilled : Status
  | rejected : Status
deriving DecidableEq, Repr

/-- The distinguishable `TypeError` objects the source constructs
(lines 39, 44, 171/213, 328, 371).  Modelled as an enumeration since only
their identity matters, not their message text. -/
inductive ErrKind : Type where
  /-- line 39: constructor called without `new` -/
  | badConstruction : ErrKind
  /-- line 44: resolver argument is not a function -/
  | badResolver : ErrKind
  /-- lines 171 and 213: `race`/`all` argument is not array-like -/
  | badIterable : ErrKind
  /-- line 328: a handler returned the very promise being resolved -/
  | selfPromise : ErrKind
  /-- line 371: a thenable resolved to itself -/
  | selfThenable : ErrKind
deriving DecidableEq, Repr

mutual
/-- A JavaScript value, as far as the promise core inspects values:
`undefined`, `null`, primitives, error objects, references to promises of
this implementation (`x instanceof Promise`, compared by identity),
arrays, and other objects/functions (characterised by how their `then`
member behaves, which is all `resolveThenable` looks at). -/
inductive JSVal : Type where
  | undef : JSVal
  | nullv : JSVal
  | boolv : Bool → JSVal
  | num : Int → JSVal
  | tyErr : ErrKind → JSVal
  | promiseRef : Nat → JSVal
  | arr : JSList → JSVal
  | obj : ThenSpec → JSVal

/-- A list of JavaScript values (an array's elements). -/
inductive JSList : Type where
  | nil : JSList
  | cons : JSVal → JSList → JSList

/-- What happens when `resolveThenable` (source lines 344-402) interacts
with the `then` member of a non-promise object or function `x`:
reading `x.then` may throw (a getter, line 347-353), may produce a
non-callable value (line 395-397), or may produce a function, whose
synchronous behaviour when invoked as `then.call(x, onY, onErr)` is the
given script of capability calls. -/
inductive ThenSpec : Type where
  | getterThrows : JSVal → ThenSpec
  | notCallable : JSVal → ThenSpec
  | callable : Script → ThenSpec

/-- The synchronous behaviour of a foreign thenable's `then` function: a
sequence of calls to the two capabilities it was handed (source lines
361-385), after which it either returns normally (`ret`) or throws
(`retThrow`).  `res y` calls the first capability with a value `y` that is
a different object from the thenable itself; `resSelf` calls it with the
thenable itself (so that the `y === x` comparison on line 370 is true);
`rej e` calls the second capability with `e`.  An exception raised inside
a capability propagates out of the `then` call, aborting the rest of the
script. -/
inductive Script : Type where
  | ret : Script
  | retThrow : JSVal → Script
  | res : JSVal → Script → Script
  | resSelf : Script → Script
  | rej : JSVal → Script → Script
end

/-- The observable settlement state of one promise: its `_status` and
`_value` fields (source lines 52, 61).  `_value` starts out `undefined`.
The `_doneCallbacks`/`_failCallbacks` fields and their scheduling are
modelled separately (see `MPromise`/`World` below); the functions on
`PState` cover the status/value part of the source functions, which is
what the resolution-procedure claims are about. -/
structure PState : Type where
  status : Status
  value : JSVal

/-- The initial state a fresh `new Promise(empty)` is in (lines 52-71):
pending, value `undefined`. -/
def freshP : PState := ⟨Status.pending, JSVal.undef⟩

/-- `resolve(promise, data)`, source lines 289-298: a no-op unless the
promise is pending, otherwise it becomes fulfilled with `data`.  (The
subsequent `run(promise)` call only schedules callbacks; its effect on the
callback queues is modelled in `World.resolveW`.) -/
def resolve (p : PState) (data : JSVal) : PState :=
  if p.status = Status.pending then ⟨Status.fullfilled, data⟩ else p

/-- `reject(promise, reason)`, source lines 300-309: a no-op unless the
promise is pending, otherwise it becomes rejected with `reason`. -/
def reject (p : PState) (reason : JSVal) : PState :=
  if p.status = Status.pending then ⟨Status.rejected, reason⟩ else p

/-- Result of running the resolution procedure against target promise `p`:
the state of `p` when the synchronous call returns, together with the ids
of the promises of this implementation on which forwarding handlers were
registered (`x.then(...)` on lines 333-340 / the recursion reaching a
promise: those handlers fire in a later scheduler turn, so they cannot
affect the synchronous result state). -/
structure RTResult : Type where
  state : PState
  follows : List Nat

/-- Result of executing a thenable's script against target promise `p`:
the resulting state of `p`, the forwarding registrations made, the final
value of the shared `invoked` latch (source line 359), and the exception
propagating out of `then.call`, if any. -/
structure ScriptResult : Type where
  state : PState
  follows : List Nat
  invoked : Bool
  thrown : Option JSVal

mutual
/-- The inner `resolveThenable(x)` of `makeCallback`, source lines
344-402, targeting promise `p`:
* a promise of this implementation is an object with a callable `then`;
  calling it registers forwarding handlers on that promise (recorded in
  `follows`) and returns with `p` untouched in this turn;
* for other objects/functions, read `x.then` (rejecting `p` if the read
  throws), treat a non-callable `then` as a plain value (`resolve p x`),
  and run a callable `then` with the two latched capabilities, rejecting
  `p` with an exception thrown by `then.call` only if the latch had not
  fired (lines 387-393);
* everything else (`null`, `undefined`, primitives) is a plain value:
  `resolve p x` (lines 399-401). -/
def resolveThenable (p : PState) (x : JSVal) : RTResult :=
  match x with
  | JSVal.promiseRef id => ⟨p, [id]⟩
  | JSVal.obj spec =>
      match spec with
      | ThenSpec.getterThrows e => ⟨reject p e, []⟩
      | ThenSpec.notCallable _ => ⟨resolve p x, []⟩
      | ThenSpec.callable script =>
          let r := runScript p script false
          match r.thrown with
          | some e => ⟨if r.invoked then r.state else reject r.state e, r.follows⟩
          | none => ⟨r.state, r.follows⟩
  | _ => ⟨resolve p x, []⟩

/-- Executes a thenable's script against target promise `p`, threading the
shared `invoked` latch (source line 359).  Each capability begins with
`if (invoked) return; invoked = true;` (lines 364-367, 378-381).  The
first capability then throws a `TypeError` when its argument is the
thenable itself (lines 370-372) — the throw happens after the latch was
set — and otherwise recurses into `resolveThenable` (line 375).  The
second capability rejects `p` (line 383).  A throw from a capability
propagates, aborting the remaining script. -/
def runScript (p : PState) (s : Script) (invoked : Bool) : ScriptResult :=
  match s with
  | Script.ret => ⟨p, [], invoked, none⟩
  | Script.retThrow e => ⟨p, [], invoked, some e⟩
  | Script.res y rest =>
      if invoked then runScript p rest invoked
      else
        let r := resolveThenable p y
        let r2 := runScript r.state rest true
        ⟨r2.state, r.follows ++ r2.follows, true, r2.thrown⟩
  | Script.resSelf rest =>
      if invoked then runScript p rest invoked
      else ⟨p, [], true, some (JSVal.tyErr ErrKind.selfThenable)⟩
  | Script.rej e rest =>
      if invoked then runScript p rest invoked
      else runScript (reject p e) rest true
end

/-- The outcome of invoking a user handler: it returns a value or throws. -/
inductive HandlerRes : Type where
  | ret : JSVal → HandlerRes
  | thr : JSVal → HandlerRes

/-- The third argument of `makeCallback` (the string `'resolve'` or
`'reject'`, source lines 98-99). -/
inductive Action : Type where
  | resolveA : Action
  | rejectA : Action

/-- The `if (x === promise) ... else if (x instanceof Promise) ... else
resolveThenable(x)` chain of `makeCallback`, source lines 327-403, where
the downstream promise is `promiseRef selfId` and currently in state `p`:
* `x === promise` (same reference): reject with the line-328 `TypeError`;
* `x` a different promise of this implementation: `x.then(...)` registers
  forwarding handlers on it (line 333-340), recorded in `follows`;
* otherwise run `resolveThenable` on `x`. -/
def dispatchX (selfId : Nat) (p : PState) (x : JSVal) : RTResult :=
  match x with
  | JSVal.promiseRef id =>
      if id = selfId then ⟨reject p (JSVal.tyErr ErrKind.selfPromise), []⟩
      else ⟨p, [id]⟩
  | _ => resolveThenable p x

/-- The `promiseCallback` closure built by `makeCallback(promise,
callback, action)`, source lines 311-412, invoked with the settled
`value` of the source promise; the downstream promise is
`promiseRef selfId`, currently in state `p`.  A non-function `callback`
is `none`.  When the callback throws, the source catches and rejects
(line 322-323) but does not return: `x` is left `undefined` and control
falls through the `dispatchX` chain (which cannot overwrite the
rejection, since `resolve`/`reject` are guarded on pending status). -/
def promiseCallback (selfId : Nat) (p : PState) (callback : Option (JSVal → HandlerRes))
    (action : Action) (value : JSVal) : RTResult :=
  match callback with
  | some cb =>
      match cb value with
      | HandlerRes.thr e => dispatchX selfId (reject p e) JSVal.undef
      | HandlerRes.ret x => dispatchX selfId p x
  | none =>
      match action with
      | Action.resolveA => ⟨resolve p value, []⟩
      | Action.rejectA => ⟨reject p value, []⟩

/-- `Promise.resolve(value)`, source lines 144-148: create a fresh pending
promise with `new Promise(empty)` and call the internal `resolve` on it
with `value`, then return it.  No resolution procedure is involved. -/
def PromiseResolve (value : JSVal) : PState :=
  resolve freshP value

/-- `Promise.reject(reason)`, source lines 156-160. -/
def PromiseReject (reason : JSVal) : PState :=
  reject freshP reason

/-- For a refinement comparison, modelled from the spec words for C2:
*"`resolve(value) -> Future` (already-fulfilled, value assimilated per
§4.3 if it is itself future-like)"* — a `resolve` that runs the
Resolution Procedure (`resolveThenable`) on its argument against the
fresh promise. -/
def specResolveAssimilating (value : JSVal) : RTResult :=
  resolveThenable freshP value

/-- How one settled input is observed by a combinator callback: the input
was fulfilled with a value or rejected with a reason. -/
inductive Outcome : Type where
  | ok : JSVal → Outcome
  | err : JSVal → Outcome

/-- The mutable state shared by the callbacks of one `Promise.race` call
(source lines 174-202): the result promise and the shared `settled`
flag (line 184). -/
structure RaceState : Type where
  settled : Bool
  prom : PState

/-- What a call to `Promise.race`/`Promise.all` has produced by the time
it returns: the combinator's internal state after the synchronous setup
(the result promise is still pending — input settlements are observed in
later scheduler turns), the number of inputs on which the shared
callbacks were registered via `then`, and the value the function call
itself evaluates to. -/
structure RaceSetup : Type where
  st : RaceState
  numInputs : Nat
  ret : JSVal

/-- `Promise.race(iterable)`, source lines 169-203.  `none` models an
argument that is missing or has no own `length` property (line 170);
it makes the call throw the line-171 `TypeError`.  Otherwise the loop
coerces each input with `Promise.resolve` as needed and registers
`resolveRaceCallback`/`rejectRaceCallback` on it; none of that settles
the internal promise synchronously.  The function body has no `return`
statement, so the call evaluates to `undefined`. -/
def PromiseRace (iterable : Option (List JSVal)) : Except JSVal RaceSetup :=
  match iterable with
  | none => Except.error (JSVal.tyErr ErrKind.badIterable)
  | some l => Except.ok ⟨⟨false, freshP⟩, l.length, JSVal.undef⟩

/-- `resolveRaceCallback`/`rejectRaceCallback`, source lines 186-202,
firing because input number `ev.fst` settled with outcome `ev.snd`: both
consult and set the shared `settled` flag, then call the internal
`resolve`/`reject` on the result promise.  (The index only identifies
which registration fired; the callbacks themselves ignore it.) -/
def raceStep (s : RaceState) (ev : Nat × Outcome) : RaceState :=
  if s.settled then s
  else
    match ev.snd with
    | Outcome.ok v => ⟨true, resolve s.prom v⟩
    | Outcome.err e => ⟨true, reject s.prom e⟩

/-- The race result state after a sequence of input settlements. -/
def raceRun (s : RaceState) (evs : List (Nat × Outcome)) : RaceState :=
  evs.foldl raceStep s

/-- The mutable state shared by the callbacks of one `Promise.all` call
(source lines 216-243): the result promise, the `result` array (sparse:
unassigned slots read as `undefined`), and the `count` of fulfilled
inputs. -/
structure AllState : Type where
  prom : PState
  result : List (Option JSVal)
  count : Nat

/-- What a call to `Promise.all` has produced by the time it returns
(compare `RaceSetup`). -/
structure AllSetup : Type where
  st : AllState
  numInputs : Nat
  ret : JSVal

/-- `Promise.all(iterable)`, source lines 211-244: validates the argument
(lines 212-214, throwing the `TypeError` for a missing/lengthless one),
creates the internal promise, registers a `makeAllCallback` pair per
input, and initialises `result = []`, `count = 0`.  The function body has
no `return` statement, so the call evaluates to `undefined`. -/
def PromiseAll (iterable : Option (List JSVal)) : Except JSVal AllSetup :=
  match iterable with
  | none => Except.error (JSVal.tyErr ErrKind.badIterable)
  | some l => Except.ok ⟨⟨freshP, [], 0⟩, l.length, JSVal.undef⟩

/-- `result[index] = value` on a JavaScript array modelled as a list of
optional slots: assign index `i`, padding with holes as needed. -/
def setIdx : List (Option JSVal) → Nat → JSVal → List (Option JSVal)
  | [], 0, v => [some v]
  | [], i + 1, v => none :: setIdx [] i v
  | _ :: xs, 0, v => some v :: xs
  | x :: xs, i + 1, v => x :: setIdx xs i v

/-- Reading the `result` array out as a value: holes read as `undefined`. -/
def toJSList : List (Option JSVal) → JSList
  | [] => JSList.nil
  | x :: xs => JSList.cons (x.getD JSVal.undef) (toJSList xs)

/-- The closure returned by `makeAllCallback(iterate, index, action)`,
source lines 230-243, firing because input number `ev.fst` settled with
outcome `ev.snd` (`length` is `iterable.length`, captured at setup):
a rejection rejects the result promise immediately; a fulfillment stores
the value at the input's index and, when `++count === length`, resolves
the result promise with the collected array. -/
def allStep (length : Nat) (s : AllState) (ev : Nat × Outcome) : AllState :=
  match ev.snd with
  | Outcome.err e => ⟨reject s.prom e, s.result, s.count⟩
  | Outcome.ok v =>
      let result := setIdx s.result ev.fst v
      let count := s.count + 1
      if count = length then ⟨resolve s.prom (JSVal.arr (toJSList result)), result, count⟩
      else ⟨s.prom, result, count⟩

/-- The all result state after a sequence of input settlements. -/
def allRun (length : Nat) (s : AllState) (evs : List (Nat × Outcome)) : AllState :=
  evs.foldl (allStep length) s

/-- One capability call a resolver function makes on the promise under
construction (source lines 74-81: the two anonymous functions handed to
`resolver` delegate to the internal `resolve`/`reject`). -/
inductive ResolverAct : Type where
  | callRes : JSVal → ResolverAct
  | callRej : JSVal → ResolverAct

/-- The synchronous behaviour of a resolver function: the capability
calls it performs, after which it returns normally (`thrown = none`) or
throws (`thrown = some e`). -/
structure ResolverSpec : Type where
  acts : List ResolverAct
  thrown : Option JSVal

/-- Applying one resolver capability call to the promise state. -/
def applyAct (p : PState) (a : ResolverAct) : PState :=
  match a with
  | ResolverAct.callRes v => resolve p v
  | ResolverAct.callRej r => reject p r

/-- The `Promise(resolver)` constructor, source lines 36-82.  A
non-function resolver (`none`) throws the line-44 `TypeError` before any
state exists.  Otherwise the fields are initialised (pending, value
`undefined`) and `resolver` is invoked synchronously, before the
constructor returns, with the two capabilities bound to the new promise
(lines 73-81); the call is not wrapped in any `try`, so an exception from
the resolver propagates to the caller.  `Except.error (e, p)` records the
propagated exception together with the state the promise was left in. -/
def PromiseNew (resolver : Option ResolverSpec) : Except (JSVal × PState) PState :=
  match resolver with
  | none => Except.error (JSVal.tyErr ErrKind.badResolver, freshP)
  | some spec =>
      let p := spec.acts.foldl applyAct freshP
      match spec.thrown with
      | some e => Except.error (e, p)
      | none => Except.ok p

/-- `Promise.defer()`, source lines 251-263: a fresh pending promise; the
bundled `resolve`/`reject` capabilities delegate to the internal
`resolve`/`reject` on it (modelled by applying `resolve`/`reject` to the
bundled state). -/
def PromiseDefer : PState := freshP

/-- A promise with its callback queues, i.e. the full field set
`_status`, `_value`, `_doneCallbacks`, `_failCallbacks` of the source
(lines 52-71).  Callbacks are identified by opaque ids (each id stands
for one `makeCallback` closure). -/
structure MPromise : Type where
  status : Status
  value : JSVal
  doneCallbacks : List Nat
  failCallbacks : List Nat

/-- One task handed to `setTimeout` by `run` (source lines 277-281): the
callback list captured at scheduling time, and the settled value they
will all be invoked with. -/
structure SchedTask : Type where
  cbs : List Nat
  arg : JSVal

/-- One promise together with the host scheduler queue and the trace of
handler invocations that have actually happened.  An entry `(id, v)` in
`trace` means callback `id` was invoked with argument `v`; invocations
happen only when the scheduler executes a task (`execTask`), never inside
`then`/`resolve`/`reject` themselves. -/
structure World : Type where
  prom : MPromise
  queue : List SchedTask
  trace : List (Nat × JSVal)

/-- `run(promise)`, source lines 265-287: a no-op while pending;
otherwise schedule (via `setTimeout`) a single task invoking the
callback list matching the final status, in order, with the settled
value, and clear both callback lists immediately. -/
def runW (w : World) : World :=
  if w.prom.status = Status.pending then w
  else
    let cbs := if w.prom.status = Status.fullfilled
      then w.prom.doneCallbacks else w.prom.failCallbacks
    { prom := { w.prom with doneCallbacks := [], failCallbacks := [] },
      queue := w.queue ++ [⟨cbs, w.prom.value⟩],
      trace := w.trace }

/-- `resolve(promise, data)` including its `run` call, source lines
289-298, at the world level. -/
def resolveW (w : World) (data : JSVal) : World :=
  if w.prom.status = Status.pending then
    runW { w with prom := { w.prom with status := Status.fullfilled, value := data } }
  else w

/-- `reject(promise, reason)` including its `run` call, source lines
300-309, at the world level. -/
def rejectW (w : World) (reason : JSVal) : World :=
  if w.prom.status = Status.pending then
    runW { w with prom := { w.prom with status := Status.rejected, value := reason } }
  else w

/-- `Promise.prototype.then(onResolve, onReject)`, source lines 95-105:
create a fresh promise, push one `makeCallback` closure (here: its id)
onto each callback list, attempt a dispatch via `run` (so registrations
against an already-settled promise are scheduled on their own task), and
return the fresh promise. -/
def thenW (w : World) (doneId failId : Nat) : World × MPromise :=
  (runW { w with prom := { w.prom with
      doneCallbacks := w.prom.doneCallbacks ++ [doneId],
      failCallbacks := w.prom.failCallbacks ++ [failId] } },
   ⟨Status.pending, JSVal.undef, [], []⟩)

/-- The host scheduler executing the task at the head of its queue: the
`setTimeout` body of `run` (lines 277-281) invokes every callback of the
task, in list order, with the captured value. -/
def execTask (w : World) : World :=
  match w.queue with
  | [] => w
  | t :: rest =>
      { w with queue := rest,
               trace := w.trace ++ t.cbs.map (fun id => (id, t.arg)) }

/-- A thenable that synchronously calls its success capability once, with
itself, and returns: `{ then: function (onY, onErr) { onY(this); } }`. -/
def selfThenable : JSVal := JSVal.obj (ThenSpec.callable (Script.resSelf Script.ret))

/-- A thenable that synchronously calls its success capability once, with
the plain value `42`, and returns. -/
def sampleThenable : JSVal :=
  JSVal.obj (ThenSpec.callable (Script.res (JSVal.num 42) Script.ret))

/-- A world holding one freshly constructed promise and an idle
scheduler. -/
def freshW : World := ⟨⟨Status.pending, JSVal.undef, [], []⟩, [], []⟩

/-! ## Theorems -/

/-- Once the shared `invoked` latch of a thenable script is set, the rest
of the script can neither change the target promise state nor register
anything: every capability call returns at its `if (invoked) return`
guard. -/
theorem runScript_ignored : ∀ (p : PState) (s : Script),
    (runScript p s true).state = p ∧ (runScript p s true).follows = [] ∧
    (runScript p s true).invoked = true
  | _, Script.ret => by simp [runScript]
  | _, Script.retThrow e => by simp [runScript]
  | p, Script.res y rest => by simpa [runScript] using runScript_ignored p rest
  | p, Script.resSelf rest => by simpa [runScript] using runScript_ignored p rest
  | p, Script.rej e rest => by simpa [runScript] using runScript_ignored p rest

/-- C1: the claim says `race(inputs)` and `all(inputs)` each return a new
Future rather than returning nothing.  The code contradicts its own
`@return {Promise}` doc comments: neither function body has a `return`
statement, so for every valid array-like input the call evaluates to
`undefined` — here shown at the inputs `[]` for `race` and `[1]` for
`all`, whose setup results carry `ret = undefined`, which is not a
promise reference. -/
theorem race_all_return_undefined :
    PromiseRace (some []) = Except.ok ⟨⟨false, freshP⟩, 0, JSVal.undef⟩ ∧
    PromiseAll (some [JSVal.num 1]) = Except.ok ⟨⟨freshP, [], 0⟩, 1, JSVal.undef⟩ ∧
    ∀ id : Nat, JSVal.undef ≠ JSVal.promiseRef id :=
  ⟨rfl, rfl, fun _ h => JSVal.noConfusion h⟩

/-- C2, counterexample: the claim says `resolve(v)` assimilates a
future-like `v`, so the returned future would fulfill with the eventual
value of `v`.  For the thenable that resolves to `42`, assimilation (the
Resolution Procedure, as the spec-modelled `specResolveAssimilating`
runs it) would fulfill with `42`, but `Promise.resolve` fulfills with the
thenable object itself, which is not `42`. -/
theorem resolve_does_not_assimilate :
    PromiseResolve sampleThenable = ⟨Status.fullfilled, sampleThenable⟩ ∧
    (specResolveAssimilating sampleThenable).state = ⟨Status.fullfilled, JSVal.num 42⟩ ∧
    sampleThenable ≠ JSVal.num 42 :=
  ⟨rfl, rfl, fun h => JSVal.noConfusion h⟩

/-- C2, amended: `Promise.resolve(v)` fulfills the returned future with
exactly `v`, for every `v` — including futures and thenables; no
assimilation is performed (lines 144-148 call the internal `resolve`
directly). -/
theorem resolve_fulfills_with_exact_value (v : JSVal) :
    PromiseResolve v = ⟨Status.fullfilled, v⟩ := rfl

/-- C3: the claim says that when a thenable's success capability is
called with the thenable itself, the target promise is rejected with a
type error.  In the code the capability sets the `invoked` latch before
throwing the `TypeError` (lines 367-372), so the `catch` on lines 387-393
sees `invoked === true` and swallows it: the promise stays pending, and
is in particular not rejected. -/
theorem self_thenable_leaves_promise_pending :
    (resolveThenable freshP selfThenable).state = freshP ∧
    (resolveThenable freshP selfThenable).state.status = Status.pending ∧
    Status.pending ≠ Status.rejected :=
  ⟨rfl, rfl, by decide⟩

/-- C4, counterexample: the claim says `all([])` fulfills immediately
with an empty sequence.  With zero inputs no callback is registered, so
when `Promise.all([])` returns, its internal promise is still pending —
not fulfilled. -/
theorem all_empty_not_fulfilled :
    PromiseAll (some []) = Except.ok ⟨⟨freshP, [], 0⟩, 0, JSVal.undef⟩ ∧
    freshP.status = Status.pending ∧
    Status.pending ≠ Status.fullfilled :=
  ⟨rfl, rfl, by decide⟩

/-- C4, amended: with the empty input, neither combinator's internal
promise can ever settle: every settlement of the internal promise goes
through a registered per-input callback, and with zero inputs no
callback exists (no event has an index below zero), so after any
possible sequence of input settlements both promises are still
pending. -/
theorem all_race_empty_never_settle (evs : List (Nat × Outcome))
    (h : ∀ ev ∈ evs, ev.fst < 0) :
    (allRun 0 ⟨freshP, [], 0⟩ evs).prom.status = Status.pending ∧
    (raceRun ⟨false, freshP⟩ evs).prom.status = Status.pending := by
  have hnil : evs = [] := by
    cases evs with
    | nil => rfl
    | cons e t => exact absurd (h e (by simp)) (by omega)
  subst hnil
  exact ⟨rfl, rfl⟩

/-- Witness for the amended C4 theorem at the concrete event list `[]`. -/
theorem all_race_empty_never_settle_witness :
    (∀ ev ∈ ([] : List (Nat × Outcome)), ev.fst < 0) ∧
    ((allRun 0 ⟨freshP, [], 0⟩ []).prom.status = Status.pending ∧
     (raceRun ⟨false, freshP⟩ []).prom.status = Status.pending) :=
  ⟨by simp, all_race_empty_never_settle [] (by simp)⟩

/-- C5: a promise's status transitions at most once, only from pending to
fulfilled or from pending to rejected; a second transition attempt of
either disposition (all of which — deferred capabilities and combinator
callbacks included — funnel through the internal `resolve`/`reject`) is
a complete no-op: it leaves the status, the settled value, and the whole
world unchanged. -/
theorem settle_transition_at_most_once (w : World) (d d' r r' : JSVal) :
    resolveW (resolveW w d) d' = resolveW w d ∧
    rejectW (resolveW w d) r' = resolveW w d ∧
    resolveW (rejectW w r) d' = rejectW w r ∧
    rejectW (rejectW w r) r' = rejectW w r ∧
    (resolveW w d).prom.status =
      (if w.prom.status = Status.pending then Status.fullfilled else w.prom.status) ∧
    (rejectW w r).prom.status =
      (if w.prom.status = Status.pending then Status.rejected else w.prom.status) := by
  by_cases h : w.prom.status = Status.pending <;>
    simp [resolveW, rejectW, runW, h]

/-- C6: when a callable handler registered via `then` throws on the
source's settled value, the downstream promise is rejected with exactly
the thrown value; the code that continues running after the `catch`
(the `dispatchX` chain on the leftover `undefined`) cannot overwrite the
rejection, so this is the final outcome. -/
theorem handler_throw_rejects_downstream (selfId : Nat) (p : PState)
    (cb : JSVal → HandlerRes) (action : Action) (value e : JSVal)
    (hp : p.status = Status.pending) (hcb : cb value = HandlerRes.thr e) :
    (promiseCallback selfId p (some cb) action value).state = ⟨Status.rejected, e⟩ ∧
    (promiseCallback selfId p (some cb) action value).follows = [] := by
  simp [promiseCallback, hcb, dispatchX, resolveThenable, resolve, reject, hp]

/-- Witness for C6 at a concrete pending promise and a handler that
throws `7`. -/
theorem handler_throw_rejects_downstream_witness :
    (promiseCallback 0 freshP (some (fun _ => HandlerRes.thr (JSVal.num 7)))
        Action.resolveA JSVal.undef).state = ⟨Status.rejected, JSVal.num 7⟩ ∧
    (promiseCallback 0 freshP (some (fun _ => HandlerRes.thr (JSVal.num 7)))
        Action.resolveA JSVal.undef).follows = [] :=
  handler_throw_rejects_downstream 0 freshP _ Action.resolveA JSVal.undef
    (JSVal.num 7) rfl rfl

/-- C7: `then` returns a new pending promise immediately; neither `then`
nor `resolve` nor `reject` ever invokes a handler synchronously (the
invocation trace is untouched — handlers are only invoked when the
scheduler executes a queued task); and handlers registered on the same
promise by successive `then` calls are invoked in registration order by
the single task `run` schedules. -/
theorem then_async_dispatch_in_order (w : World) (a a' b b' : Nat) (v d r : JSVal) :
    (thenW w a b).fst.trace = w.trace ∧
    (resolveW w d).trace = w.trace ∧
    (rejectW w r).trace = w.trace ∧
    (thenW w a b).snd = ⟨Status.pending, JSVal.undef, [], []⟩ ∧
    (w.prom.status = Status.pending → w.queue = [] →
      (execTask (resolveW (thenW (thenW w a a').fst b b').fst v)).trace =
        w.trace ++ (w.prom.doneCallbacks ++ [a, b]).map (fun id => (id, v))) := by
  refine ⟨?_, ?_, ?_, rfl, ?_⟩
  · by_cases h : w.prom.status = Status.pending <;> simp [thenW, runW, h]
  · by_cases h : w.prom.status = Status.pending <;> simp [resolveW, runW, h]
  · by_cases h : w.prom.status = Status.pending <;> simp [rejectW, runW, h]
  · intro h hq
    simp [thenW, resolveW, runW, execTask, h, hq]

/-- Witness for C7 on a fresh world: two `then` registrations, a
resolution with `5`, then one scheduler turn, invoking the two success
handlers in registration order. -/
theorem then_async_dispatch_in_order_witness :
    freshW.prom.status = Status.pending ∧ freshW.queue = [] ∧
    (execTask (resolveW (thenW (thenW freshW 0 1).fst 2 3).fst (JSVal.num 5))).trace =
      freshW.trace ++ (freshW.prom.doneCallbacks ++ [0, 2]).map (fun id => (id, JSVal.num 5)) :=
  ⟨rfl, rfl,
    (then_async_dispatch_in_order freshW 0 1 2 3 (JSVal.num 5) JSVal.undef
        JSVal.undef).2.2.2.2 rfl rfl⟩

/-- C8: the two capabilities handed to a foreign thenable's `then` share
one `invoked` latch.  Once the latch is set, any further capability
calls in the script leave the target promise state untouched and
register nothing; consequently, whichever capability is called first
alone determines the synchronous outcome: a script starting with a
success call on `y` ends in the state `resolveThenable` gives `y`, one
starting with a failure call on `e` ends in `reject p e`, and one
starting with a self-referential success call leaves `p` as is —
regardless of the rest of the script, so the target promise cannot be
transitioned twice by an adversarial thenable. -/
theorem thenable_capability_latch (p : PState) (s rest : Script) (y e : JSVal) :
    ((runScript p s true).state = p ∧ (runScript p s true).follows = []) ∧
    (runScript p (Script.res y rest) false).state = (resolveThenable p y).state ∧
    (runScript p (Script.rej e rest) false).state = reject p e ∧
    (runScript p (Script.resSelf rest) false).state = p := by
  refine ⟨⟨(runScript_ignored p s).1, (runScript_ignored p s).2.1⟩, ?_, ?_, ?_⟩
  · simp [runScript, (runScript_ignored (resolveThenable p y).state rest).1]
  · simp [runScript, (runScript_ignored (reject p e) rest).1]
  · simp [runScript]

/-- C9: calling `then` on a promise leaves that promise's own status and
settled value unchanged; it only appends the new callback pair to the
queues (pending case) or leaves them cleared by the dispatch it triggers
(settled case). -/
theorem then_preserves_source_state (w : World) (a b : Nat) :
    (thenW w a b).fst.prom.status = w.prom.status ∧
    (thenW w a b).fst.prom.value = w.prom.value ∧
    (thenW w a b).fst.prom.doneCallbacks =
      (if w.prom.status = Status.pending then w.prom.doneCallbacks ++ [a] else []) ∧
    (thenW w a b).fst.prom.failCallbacks =
      (if w.prom.status = Status.pending then w.prom.failCallbacks ++ [b] else []) := by
  by_cases h : w.prom.status = Status.pending <;> simp [thenW, runW, h]

/-- C10: the constructor invokes the resolver synchronously before
returning, with working capabilities bound to the new promise (a resolver
that calls `resolve(v)` yields a promise already fulfilled with `v`, one
that calls `reject(r)` one already rejected with `r`); a resolver that
throws makes the exception propagate out of the constructor, and the
promise is left in its pending state, not rejected. -/
theorem constructor_runs_resolver_synchronously (v r e : JSVal) :
    PromiseNew (some ⟨[ResolverAct.callRes v], none⟩) = Except.ok ⟨Status.fullfilled, v⟩ ∧
    PromiseNew (some ⟨[ResolverAct.callRej r], none⟩) = Except.ok ⟨Status.rejected, r⟩ ∧
    PromiseNew (some ⟨[], some e⟩) = Except.error (e, freshP) ∧
    freshP.status = Status.pending ∧
    Status.pending ≠ Status.rejected :=
  ⟨rfl, rfl, rfl, rfl, by decide⟩

end PromiseJS
